import Mathlib

/-!
Verification of the dedup / incremental-selection core of the ai-news-monitor
repository (news_parser_db.py, news_handler_db.py, forbes_github.py,
src/forbes_github.py, src/main.py).

The Python code is shallowly embedded: file contents and record lines are
`List Char`, database rows are structures, SQLite queries become pure
functions on a list-of-rows store, and the cryptographic digests (sha1 in
news_parser_db.py, md5 in forbes_github.py) are abstract function
parameters `h : String → String` — only equality of digests of equal
inputs matters to the verified properties, never a property of the
concrete digest.

Python string primitives (strip, lower, split, join, startswith, `in`,
int(), replace) are modelled over `List Char` in the `PyStr` namespace.
-/

namespace PyStr

/-- Whitespace test used by the models of Python `str.strip` / `str.split()` /
`\s`; covers the ASCII whitespace Python recognises. -/
def isSpace (c : Char) : Bool :=
  c = ' ' || c = '\t' || c = '\n' || c = '\r' || c = '\x0b' || c = '\x0c'

/-- Model of Python `str.strip()` (no argument): drop whitespace from both ends. -/
def pyStrip (s : List Char) : List Char :=
  ((s.dropWhile isSpace).reverse.dropWhile isSpace).reverse

/-- Model of Python `str.lower()` (ASCII case folding; the repository only
lower-cases scraped ASCII titles). -/
def pyLower (s : List Char) : List Char :=
  s.map Char.toLower

/-- Model of Python `str.startswith(p)`. -/
def pyStartswith (p s : List Char) : Bool :=
  p.isPrefixOf s

/-- Model of the Python substring test `needle in hay`. -/
def pyContains (needle hay : List Char) : Bool :=
  decide (needle <:+: hay)

/-- Worker for `pySplit`: split on the non-empty separator `c0 :: sep1`,
leftmost non-overlapping occurrences, exactly like Python `str.split(sep)`.
The `fuel` argument (instantiated with the input length) makes the
recursion structural; the `fuel = 0` branch is unreachable for sufficient
fuel. -/
def splitF (c0 : Char) (sep1 : List Char) : Nat → List Char → List (List Char)
  | _, [] => [[]]
  | 0, s => [s]
  | fuel + 1, c :: cs =>
    if (c0 :: sep1).isPrefixOf (c :: cs) then
      [] :: splitF c0 sep1 fuel (cs.drop sep1.length)
    else
      match splitF c0 sep1 fuel cs with
      | [] => [[c]]
      | p :: ps => (c :: p) :: ps

/-- Model of Python `str.split(sep)` with an explicit separator (Python raises
on an empty separator; the repository only splits on `'\n'`, `':'`, `'|'` and
the 50-dash block separator, all non-empty). -/
def pySplit (sep s : List Char) : List (List Char) :=
  match sep with
  | [] => [s]
  | c0 :: sep1 => splitF c0 sep1 s.length s

/-- Model of Python `sep.join(parts)`. -/
def pyJoin (sep : List Char) : List (List Char) → List Char
  | [] => []
  | [p] => p
  | p :: ps => p ++ sep ++ pyJoin sep ps

/-- Model of Python `str.replace(old, "")` (remove all leftmost
non-overlapping occurrences), used by `file_has_news`. -/
def pyReplaceE (old s : List Char) : List Char :=
  (pySplit old s).flatten

/-- Accumulator worker for `pySplitWs`: `cur` is the current token,
collected in reverse. -/
def pySplitWsAux : List Char → List Char → List (List Char)
  | cur, [] => if cur.isEmpty then [] else [cur.reverse]
  | cur, c :: cs =>
    if isSpace c then
      if cur.isEmpty then pySplitWsAux [] cs
      else cur.reverse :: pySplitWsAux [] cs
    else pySplitWsAux (c :: cur) cs

/-- Model of Python `str.split()` with no argument: tokenize on runs of
whitespace, producing no empty tokens. -/
def pySplitWs (s : List Char) : List (List Char) :=
  pySplitWsAux [] s

/-- Value of a run of decimal digits (helper for the model of Python `int`). -/
def digitsVal (l : List Char) : Option Nat :=
  match l with
  | [] => none
  | l => if l.all Char.isDigit then
           some (l.foldl (fun a c => a * 10 + (c.toNat - 48)) 0)
         else none

/-- Model of Python `int(s)` on the inputs the repository feeds it: optional
sign followed by decimal digits, surrounding whitespace ignored; `none`
models the `ValueError` the code catches. -/
def pyInt? (s : List Char) : Option Int :=
  match pyStrip s with
  | [] => none
  | c :: cs =>
    if c = '-' then (digitsVal cs).map (fun n => -(n : Int))
    else if c = '+' then (digitsVal cs).map (fun n => (n : Int))
    else (digitsVal (c :: cs)).map (fun n => (n : Int))

end PyStr

/-- String-level wrapper for `PyStr.pyStrip` (Python `str.strip()`). -/
def pyStripS (s : String) : String :=
  ⟨PyStr.pyStrip s.data⟩

/-- String-level wrapper for `PyStr.pyLower` (Python `str.lower()`). -/
def pyLowerS (s : String) : String :=
  ⟨PyStr.pyLower s.data⟩

/-- String-level wrapper for the Python substring test `needle in hay`. -/
def pyContainsS (needle hay : String) : Bool :=
  PyStr.pyContains needle.data hay.data

/-!
Embedding of the SQLite-backed dedup store of news_parser_db.py
(class NewsDB, table `news`) and the reader/updater helpers of
news_handler_db.py (`get_next_article`, `mark_article_posted`).

A row of the `news` table becomes an `Article`; the store is the list of
rows plus the AUTOINCREMENT counter.  SQLite TEXT comparison is binary
(memcmp on UTF-8), which coincides with Lean's lexicographic `String`
order by code point; a NULL `pub_date` sorts before every TEXT value
under `ORDER BY pub_date ASC`, which the `Option String` order below
reproduces.
-/

/-- Value of the `status` column for freshly inserted rows
(schema default and the literal in the INSERT of `add_article`). -/
def statusNew : String := "new"

/-- Value written by `mark_article_posted` (`UPDATE news SET status='posted'`). -/
def statusPosted : String := "posted"

/-- One row of the `news` table created by `NewsDB._init_schema`. -/
structure Article where
  id : Nat
  site : String
  title : String
  link : String
  pub_date : Option String
  parsed_date : String
  fingerprint : String
  status : String
deriving DecidableEq

/-- State of the SQLite store: rows plus the AUTOINCREMENT counter for `id`. -/
structure NewsStore where
  rows : List Article
  nextId : Nat
deriving DecidableEq

/-- Embedding of `NewsDB.fingerprint`: sha1 of `title + "|" + (link or "")`,
with the sha1 hex digest abstracted into the parameter `h`. -/
def newsDBFingerprint (h : String → String) (title link : String) : String :=
  h (title ++ "|" ++ link)

/-- Embedding of `NewsDB.add_article`.  `ioFail` injects the "unexpected
error on insert" branch (`except Exception`): the exception is caught,
logged, and `False` is returned with no mutation.  Otherwise the INSERT
either violates the UNIQUE index on `fingerprint` (IntegrityError branch:
returns `False`, no mutation) or appends one row with `status = 'new'`.
`nowIso` stands for `datetime.utcnow().isoformat()` (the `parsed_date`). -/
def add_article (h : String → String) (ioFail : Bool) (db : NewsStore)
    (site title link : String) (pub_date : Option String) (nowIso : String) :
    Bool × NewsStore :=
  let fp := newsDBFingerprint h title link
  if ioFail then (false, db)
  else if db.rows.any (fun r => r.fingerprint == fp) then (false, db)
  else (true,
    ⟨db.rows ++ [⟨db.nextId, site, title, link, pub_date, nowIso, fp, statusNew⟩],
     db.nextId + 1⟩)

/-- Embedding of `mark_article_posted` (news_handler_db.py):
`UPDATE news SET status='posted' WHERE id = ?` followed by commit. -/
def mark_article_posted (db : NewsStore) (idv : Nat) : NewsStore :=
  ⟨db.rows.map (fun r => if r.id = idv then { r with status := statusPosted } else r),
   db.nextId⟩

/-- SQLite `ORDER BY pub_date ASC` comparison on a nullable TEXT column:
NULL sorts first, TEXT values compare bytewise. -/
def pubLtB : Option String → Option String → Bool
  | none, none => false
  | none, some _ => true
  | some _, none => false
  | some a, some b => decide (a < b)

/-- Strict comparison for `ORDER BY pub_date ASC, parsed_date ASC`. -/
def keyLtB (a b : Article) : Bool :=
  pubLtB a.pub_date b.pub_date ||
  (decide (a.pub_date = b.pub_date) && decide (a.parsed_date < b.parsed_date))

/-- Fold step realising `ORDER BY ... LIMIT 1`: keep the first row among
those minimal under `keyLtB`. -/
def selStep (best : Option Article) (r : Article) : Option Article :=
  match best with
  | none => some r
  | some b => if keyLtB r b then some r else some b

/-- Embedding of `get_next_article` (news_handler_db.py):
`SELECT * FROM news WHERE status='new' ORDER BY pub_date ASC, parsed_date ASC
LIMIT 1`.  The fold returns the first row among those minimal under the
ordering, which is one of the rows SQLite may return for the query. -/
def get_next_article (db : NewsStore) : Option Article :=
  (db.rows.filter (fun r => r.status == statusNew)).foldl selStep none

/-- Exit status of `news_parser_db.py` run as a script: `main()` logs,
prints the result JSON and returns; no `sys.exit` call is reached on any
path (DB errors are caught inside `add_article`), so the interpreter
always exits 0. -/
def news_parser_main_exit_code : Nat := 0

/-!
Embedding of the Forbes scraping revisions (forbes_github.py and
src/forbes_github.py): the candidate record dictionaries, `is_same_news`,
and the marker-based new/seen split of `parse_forbes_ai`.
-/

/-- One candidate dictionary `{'date','title','link','fingerprint'}`;
`fp?` models `dict.get('fingerprint')` (absent on a hand-edited marker). -/
structure News where
  date : String
  title : String
  link : String
  fp? : Option String
deriving DecidableEq

/-- Embedding of `generate_fingerprint`: md5 of `f"{title}|{url}"`, the md5
hex digest abstracted into `h`. -/
def generate_fingerprint (h : String → String) (title url : String) : String :=
  h (title ++ "|" ++ url)

/-- Python truthiness of `dict.get('fingerprint')`: `None` and the empty
string are falsy. -/
def truthyFp : Option String → Bool
  | none => false
  | some s => !(s == "")

/-- Word set of a normalized title: `set(title.split())` on an already
lower-cased and stripped title. -/
def titleWords (t : String) : Finset (List Char) :=
  (PyStr.pySplitWs t.data).toFinset

/-- Embedding of `is_same_news` (identical in both Forbes revisions):
fingerprint equality (when both truthy), exact link equality, normalized
title equality, then word-overlap similarity
`len(w1 ∩ w2) / max(len(w1), len(w2)) > 0.7` on non-empty word sets.
The float comparison is modelled exactly as the rational inequality
`10·|w1 ∩ w2| > 7·max(|w1|,|w2|)`; for word-set sizes ever produced by a
title the float division is exact enough that the two agree. -/
def is_same_news (n1 n2 : News) : Bool :=
  if truthyFp n1.fp? && truthyFp n2.fp? && (n1.fp? == n2.fp?) then true
  else if n1.link == n2.link then true
  else
    let t1 := pyStripS (pyLowerS n1.title)
    let t2 := pyStripS (pyLowerS n2.title)
    if t1 == t2 then true
    else
      let w1 := titleWords t1
      let w2 := titleWords t2
      if w1.card ≠ 0 && w2.card ≠ 0 then
        decide (10 * (w1 ∩ w2).card > 7 * max w1.card w2.card)
      else false

/-- Transcription of claim C4's matching rule exactly as the spec words it,
for comparison with `is_same_news`: the final fallback is the *Jaccard*
similarity `|w1 ∩ w2| / |w1 ∪ w2| > 0.7` of the word sets. -/
def is_same_news_specJaccard (n1 n2 : News) : Bool :=
  if truthyFp n1.fp? && truthyFp n2.fp? && (n1.fp? == n2.fp?) then true
  else if n1.link == n2.link then true
  else
    let t1 := pyStripS (pyLowerS n1.title)
    let t2 := pyStripS (pyLowerS n2.title)
    if t1 == t2 then true
    else
      let w1 := titleWords t1
      let w2 := titleWords t2
      if w1.card ≠ 0 && w2.card ≠ 0 then
        decide (10 * (w1 ∩ w2).card > 7 * (w1 ∪ w2).card)
      else false

/-- Result of one ingestion pass: the articles judged new, and the marker
written to last_news.json (none when `save_last_news` was not called). -/
structure ParseOutcome where
  articles : List News
  savedMarker : Option News
deriving DecidableEq

/-- Embedding of `ForbesParser.parse_forbes_ai` (forbes_github.py): after
collecting `all_articles` newest-first, locate the previous marker with
`is_same_news` at the first matching position, keep the strict prefix
above it, otherwise keep everything; then save `all_articles[0]` as the
new marker whenever the scraped list is non-empty. -/
def parse_forbes_ai (last_news : Option News) (all_articles : List News) :
    ParseOutcome :=
  let articles :=
    match last_news with
    | some ln =>
      match all_articles.findIdx? (fun a => is_same_news a ln) with
      | some i => all_articles.take i
      | none => all_articles
    | none => all_articles
  { articles := articles, savedMarker := all_articles.head? }

/-- Scan loop of `parse_forbes_ai` in src/forbes_github.py over the
structured containers (time + h3/a).  Each input `News` carries the raw
`.text` / `href` values of a container whose element lookups succeeded
(lookups that throw are skipped by `continue` and so contribute nothing).
The loop strips date and title, skips empty dates and short titles, skips
links already collected, stops at the first candidate judged the same as
the previous marker, and otherwise appends.  Returns the collected
articles and the `found_known_news` flag. -/
def collectNewAux (h : String → String) (last : Option News) :
    List News → List News → List News × Bool
  | acc, [] => (acc, false)
  | acc, raw :: rest =>
    let date := pyStripS raw.date
    let title := pyStripS raw.title
    let href := raw.link
    if date == "" then collectNewAux h last acc rest
    else if !(!(title == "") && !(href == "") && decide (title.length > 10)) then
      collectNewAux h last acc rest
    else
      let cur : News := ⟨date, title, href, some (generate_fingerprint h title href)⟩
      if acc.any (fun a => a.link == href) then collectNewAux h last acc rest
      else
        match last with
        | some ln =>
          if is_same_news cur ln then (acc, true)
          else collectNewAux h last (acc ++ [cur]) rest
        | none => collectNewAux h last (acc ++ [cur]) rest

/-- Fallback scan of src/forbes_github.py over all `h3//a` links (run when
fewer than 5 articles were collected): same loop without the empty-date
skip (the date text is used unchecked there); items whose ancestor `time`
lookup throws are skipped by `continue` and are therefore not part of the
modelled input. -/
def collectH3Aux (h : String → String) (last : Option News) :
    List News → List News → List News × Bool
  | acc, [] => (acc, false)
  | acc, raw :: rest =>
    let date := pyStripS raw.date
    let title := pyStripS raw.title
    let href := raw.link
    if !(!(title == "") && !(href == "") && decide (title.length > 10)) then
      collectH3Aux h last acc rest
    else
      let cur : News := ⟨date, title, href, some (generate_fingerprint h title href)⟩
      if acc.any (fun a => a.link == href) then collectH3Aux h last acc rest
      else
        match last with
        | some ln =>
          if is_same_news cur ln then (acc, true)
          else collectH3Aux h last (acc ++ [cur]) rest
        | none => collectH3Aux h last (acc ++ [cur]) rest

/-- Embedding of `parse_forbes_ai` in src/forbes_github.py: the container
scan, then (only when fewer than 5 articles were found and the known news
was not yet reached) the h3 fallback scan, then `save_last_news(articles[0])`
only when the collected *new* list is non-empty. -/
def src_parse_forbes_ai (h : String → String) (last : Option News)
    (containers h3links : List News) : ParseOutcome :=
  let r1 := collectNewAux h last [] containers
  let r2 :=
    if r1.1.length < 5 then
      if r1.2 then r1 else collectH3Aux h last r1.1 h3links
    else r1
  { articles := r2.1, savedMarker := r2.1.head? }

/-!
Embedding of `normalize_date` (news_parser_db.py).  The two stdlib parsers
(`datetime.fromisoformat` and `strptime(s, "%B %d, %Y")`, each composed
with `.isoformat()`) are abstract parameters that return `none` exactly
when the Python call raises; the current-time values
(`utcnow() - timedelta(...)` and `utcnow().date()`, each `.isoformat()`)
are parameters as well.  The regular expressions `(\d+)\s+hour` and
`(\d+)\s+minute` are modelled exactly: their character classes are
disjoint, so the leftmost match is the first position where a digit run,
a whitespace run, and the literal word follow each other.
-/

/-- Does a match of `(\d+)\s+w` start at the head of `s`? -/
def matchNumSpWordHere (w : List Char) (s : List Char) : Bool :=
  let d := s.takeWhile Char.isDigit
  if d.isEmpty then false
  else
    let r1 := s.dropWhile Char.isDigit
    if (r1.takeWhile PyStr.isSpace).isEmpty then false
    else PyStr.pyStartswith w (r1.dropWhile PyStr.isSpace)

/-- Leftmost `re.search(r"(\d+)\s+w", s)`: the captured integer of the
first match, or `none`. -/
def searchNumSpWord (w : List Char) : List Char → Option Nat
  | [] => none
  | c :: cs =>
    if matchNumSpWordHere w (c :: cs) then
      some (((c :: cs).takeWhile Char.isDigit).foldl
        (fun a x => a * 10 + (x.toNat - 48)) 0)
    else searchNumSpWord w cs

/-- Embedding of `normalize_date`: ISO parse, `"%B %d, %Y"` parse, relative
"N hours/minutes ago", "an hour ago"/"one hour ago", "today", and finally
the fallback `return s` that keeps the original (stripped) text. -/
def normalize_date (fromiso strptimeBdY : String → Option String)
    (nowMinusHours nowMinusMinutes : Nat → String) (todayDate : String)
    (raw : Option String) : Option String :=
  match raw with
  | none => none
  | some raw0 =>
    let s := pyStripS raw0
    match fromiso s with
    | some v => some v
    | none =>
      match strptimeBdY s with
      | some v => some v
      | none =>
        let low := pyLowerS s
        match searchNumSpWord ("hour").data low.data with
        | some n => some (nowMinusHours n)
        | none =>
          match searchNumSpWord ("minute").data low.data with
          | some n => some (nowMinusMinutes n)
          | none =>
            if pyContainsS ("an hour ago") low || pyContainsS ("one hour ago") low then
              some (nowMinusHours 1)
            else if low == ("today") || pyContainsS ("today") low then
              some todayDate
            else some s

/-!
Embedding of the file-based Sent-Set pipeline of src/main.py
(`ExistingFilesNewsManager`): block/line removal of a sent record from a
result file, counter update, emptiness check and file deletion, and the
combined `mark_news_sent_and_cleanup`.  File contents are `List Char`;
the Sent-Set (`sent_news.json`, a Python set of md5 hex strings) is a
`Finset` of hashes; a missing/deleted file is `none` (reading it raises,
which `remove_news_from_file` catches and `remove_empty_file` tests with
`os.path.exists`).
-/

/-- The 50-dash block separator literal used throughout src/main.py. -/
def sepDashes : List Char := List.replicate 50 ('-')

/-- Format marker `'FORBES AI - GITHUB PARSER'` tested by the layout dispatch. -/
def forbesMarker : List Char := ("FORBES AI - GITHUB PARSER").data

/-- The field label `'TITLE:'`. -/
def titleLabel : List Char := ("TITLE:").data

/-- The field label `'LINK:'`. -/
def linkLabel : List Char := ("LINK:").data

/-- The counter-line label `'New articles:'`. -/
def counterLabel : List Char := ("New articles:").data

/-- Newline separator (for `content.split('\n')` / `'\n'.join`). -/
def nlSep : List Char := [ '\n' ]

/-- Colon separator (for `line.split(':')`). -/
def colonSep : List Char := [ ':' ]

/-- Pipe separator (for `news_line.split('|')`). -/
def pipeSep : List Char := [ '|' ]

/-- Removal predicate of `remove_forbes_news_block`:
`'TITLE:' in block and title_to_remove in block`. -/
def blockMatches (title block : List Char) : Bool :=
  PyStr.pyContains titleLabel block && PyStr.pyContains title block

/-- Loop of `remove_forbes_news_block`: walk the blocks, skip (and count)
the matching ones, keep the rest in order. -/
def removeBlocksLoop (title : List Char) (acc : List (List Char)) (k : Nat) :
    List (List Char) → List (List Char) × Nat
  | [] => (acc, k)
  | b :: bs =>
    if blockMatches title b then removeBlocksLoop title acc (k + 1) bs
    else removeBlocksLoop title (acc ++ [b]) k bs

/-- Embedding of `update_articles_count`: find the first line whose
stripped form starts with `'New articles:'`, parse the text between the
first and second colon as an int, and rewrite that line to
`f"New articles: {max(0, current - removed)}"`; any parse failure is
caught and returns the content unchanged; when no line matches, the loop
falls through and returns `'\n'.join(lines)`. -/
def update_articles_count (content : List Char) (removed : Nat) : List Char :=
  let lines := PyStr.pySplit nlSep content
  match lines.findIdx? (fun l => PyStr.pyStartswith counterLabel (PyStr.pyStrip l)) with
  | none => PyStr.pyJoin nlSep lines
  | some i =>
    match lines.get? i with
    | none => PyStr.pyJoin nlSep lines
    | some l =>
      match (PyStr.pySplit colonSep l).get? 1 with
      | none => content
      | some seg =>
        match PyStr.pyInt? (PyStr.pyStrip seg) with
        | none => content
        | some n =>
          PyStr.pyJoin nlSep
            (lines.set i (counterLabel ++ [ ' ' ] ++
              (Nat.repr (max 0 (n - (removed : Int))).toNat).data))

/-- Embedding of `remove_forbes_news_block`: no-op when the record line has
no `'|'`; otherwise remove every block containing both `'TITLE:'` and the
record's title, rejoin with the 50-dash separator, and update the counter
by the number of removed blocks. -/
def remove_forbes_news_block (content news_line : List Char) : List Char :=
  if !PyStr.pyContains pipeSep news_line then content
  else
    let title := PyStr.pyStrip ((PyStr.pySplit pipeSep news_line).headI)
    let blocks := PyStr.pySplit sepDashes content
    let r := removeBlocksLoop title [] 0 blocks
    update_articles_count (PyStr.pyJoin sepDashes r.1) r.2

/-- Embedding of `remove_news_from_file` on the content it rewrites: Forbes
layout goes through `remove_forbes_news_block`, the simple layout drops
every line whose stripped form equals the record line. -/
def remove_news_from_file (content news_line : List Char) : List Char :=
  if PyStr.pyContains forbesMarker content then
    remove_forbes_news_block content news_line
  else
    PyStr.pyJoin nlSep
      ((PyStr.pySplit nlSep content).filter
        (fun l => !(PyStr.pyStrip l == news_line)))

/-- Embedding of `file_has_news`: in the Forbes layout, count blocks that
contain both labels and have a non-empty `TITLE:` and `LINK:` line (after
`str.replace(label, '')` and strip); in the simple layout, look for a
non-blank line containing `'|'`. -/
def file_has_news (content : List Char) : Bool :=
  if PyStr.pyContains forbesMarker content then
    ((PyStr.pySplit sepDashes content).countP (fun block =>
      PyStr.pyContains titleLabel block && PyStr.pyContains linkLabel block &&
      (let lines := PyStr.pySplit nlSep (PyStr.pyStrip block)
       lines.any (fun l => PyStr.pyContains titleLabel l &&
         decide ((PyStr.pyStrip (PyStr.pyReplaceE titleLabel l)).length > 0)) &&
       lines.any (fun l => PyStr.pyContains linkLabel l &&
         decide ((PyStr.pyStrip (PyStr.pyReplaceE linkLabel l)).length > 0))))) > 0
  else
    ((PyStr.pySplit nlSep content).filter
      (fun l => !(PyStr.pyStrip l).isEmpty)).countP
        (fun l => PyStr.pyContains pipeSep (PyStr.pyStrip l)) > 0

/-- State handled by `mark_news_sent_and_cleanup`: the persisted Sent-Set
and the source file's content (`none` once the file has been deleted). -/
structure FilesState where
  sent : Finset (List Char)
  file : Option (List Char)

/-- Embedding of `mark_news_sent_and_cleanup`: add the hash to the
Sent-Set (persisted by `save_sent_news`), rewrite the file without the
record (`remove_news_from_file`; a missing file raises and is caught),
then delete the file when `file_has_news` fails (`remove_empty_file`). -/
def mark_news_sent_and_cleanup (news_hash news_line : List Char)
    (st : FilesState) : FilesState :=
  let sent1 := insert news_hash st.sent
  match st.file with
  | none => { sent := sent1, file := none }
  | some c =>
    let c1 := remove_news_from_file c news_line
    { sent := sent1, file := if file_has_news c1 then some c1 else none }

/-!
Claim theorems.  Each claim of the frozen list gets exactly one theorem
below (plus a witness or counterexample where required).
-/

/-- Store used by the counterexample to claim C1: it already holds the
article's identity record with `status = 'posted'` (the digest is
instantiated with `id`, so the stored fingerprint is `"t|l"`). -/
def claim1Store : NewsStore :=
  ⟨[⟨0, ("s0"), ("t"), ("l"), none, ("d0"), ("t|l"), statusPosted⟩], 1⟩

/-- Claim C1 as stated is false: quantified over *every* store state, the
promise "inserting the same (title, link) pair twice results in exactly
one stored record with status 'new'" fails when the store already holds
that pair as a `posted` record — both inserts are then rejected as
duplicates (no mutation, no fatal error), and the surviving record keeps
`status = 'posted'`: zero records with the pair's fingerprint have
`status = 'new'`. -/
theorem claim1_counterexample :
    (add_article id false claim1Store ("s") ("t") ("l") none ("n1")).1 = false
    ∧ (add_article id false
        (add_article id false claim1Store ("s") ("t") ("l") none ("n1")).2
        ("s") ("t") ("l") none ("n2")).1 = false
    ∧ (add_article id false
        (add_article id false claim1Store ("s") ("t") ("l") none ("n1")).2
        ("s") ("t") ("l") none ("n2")).2 = claim1Store
    ∧ ((add_article id false
        (add_article id false claim1Store ("s") ("t") ("l") none ("n1")).2
        ("s") ("t") ("l") none ("n2")).2.rows.countP
          (fun r => r.fingerprint == newsDBFingerprint id ("t") ("l")
            && r.status == statusNew)) = 0 := by
  decide

/-- Claim C1, amended: when no record with the pair's fingerprint exists
yet, inserting the same `(title, link)` twice stores exactly one record
with `status = 'new'`; the second insert returns the duplicate result
`false` and leaves the store exactly as the first insert left it. -/
theorem claim1_amended (h : String → String) (db : NewsStore)
    (s1 s2 t l : String) (pd1 pd2 : Option String) (n1 n2 : String)
    (hfp : ∀ r ∈ db.rows, r.fingerprint ≠ newsDBFingerprint h t l) :
    (add_article h false db s1 t l pd1 n1).1 = true
    ∧ (add_article h false (add_article h false db s1 t l pd1 n1).2
        s2 t l pd2 n2).1 = false
    ∧ (add_article h false (add_article h false db s1 t l pd1 n1).2
        s2 t l pd2 n2).2 = (add_article h false db s1 t l pd1 n1).2
    ∧ ((add_article h false db s1 t l pd1 n1).2.rows.countP
        (fun r => r.fingerprint == newsDBFingerprint h t l
          && r.status == statusNew)) = 1 := by
  have hany : db.rows.any (fun r => r.fingerprint == newsDBFingerprint h t l) = false := by
    rw [List.any_eq_false]
    intro r hr
    simpa using hfp r hr
  have hcnt : db.rows.countP
      (fun r => r.fingerprint == newsDBFingerprint h t l && r.status == statusNew) = 0 := by
    rw [List.countP_eq_zero]
    intro r hr
    have := hfp r hr
    simp [this]
  have h1 : add_article h false db s1 t l pd1 n1 =
      (true, ⟨db.rows ++ [⟨db.nextId, s1, t, l, pd1, n1,
        newsDBFingerprint h t l, statusNew⟩], db.nextId + 1⟩) := by
    simp [add_article, hany]
  have h2 : add_article h false (add_article h false db s1 t l pd1 n1).2
      s2 t l pd2 n2 = (false, (add_article h false db s1 t l pd1 n1).2) := by
    rw [h1]
    simp [add_article, List.any_append, hany]
  refine ⟨?_, ?_, ?_, ?_⟩
  · rw [h1]
  · rw [h2]
  · rw [h2]
  · rw [h1]
    simp [List.countP_append, hcnt]

/-- Witness for `claim1_amended` at a concrete input: the empty store and
the pair `("t","l")` with the digest instantiated to `id`. -/
theorem claim1_witness :
    (∀ r ∈ (⟨[], 0⟩ : NewsStore).rows,
      r.fingerprint ≠ newsDBFingerprint id ("t") ("l"))
    ∧ ((add_article id false ⟨[], 0⟩ ("s") ("t") ("l") none ("n1")).1 = true
      ∧ (add_article id false
          (add_article id false ⟨[], 0⟩ ("s") ("t") ("l") none ("n1")).2
          ("s2") ("t") ("l") none ("n2")).1 = false
      ∧ (add_article id false
          (add_article id false ⟨[], 0⟩ ("s") ("t") ("l") none ("n1")).2
          ("s2") ("t") ("l") none ("n2")).2
          = (add_article id false ⟨[], 0⟩ ("s") ("t") ("l") none ("n1")).2
      ∧ ((add_article id false ⟨[], 0⟩ ("s") ("t") ("l") none ("n1")).2.rows.countP
          (fun r => r.fingerprint == newsDBFingerprint id ("t") ("l")
            && r.status == statusNew)) = 1) :=
  ⟨by decide, claim1_amended id ⟨[], 0⟩ ("s") ("s2") ("t") ("l") none none
      ("n1") ("n2") (by decide)⟩

/-- The index search of the fold in `parse_forbes_ai` returns `none` when no
element matches (general start index). -/
theorem findIdx?_all_false {α : Type} (p : α → Bool) :
    ∀ (l : List α), (∀ a ∈ l, p a = false) → ∀ i, List.findIdx? p l i = none := by
  intro l
  induction l with
  | nil => intro _ i; rfl
  | cons a l ih =>
    intro hall i
    rw [List.findIdx?_cons]
    rw [hall a (List.mem_cons_self a l)]
    exact ih (fun x hx => hall x (List.mem_cons_of_mem a hx)) (i + 1)

/-- The index search finds the first matching element (general start index). -/
theorem findIdx?_first_match {α : Type} (p : α → Bool) (x : α) (l2 : List α) :
    ∀ (l1 : List α) (i : Nat), (∀ a ∈ l1, p a = false) → p x = true →
      List.findIdx? p (l1 ++ x :: l2) i = some (l1.length + i) := by
  intro l1
  induction l1 with
  | nil =>
    intro i _ hx
    simp [List.findIdx?_cons, hx]
  | cons a l1 ih =>
    intro i hall hx
    rw [List.cons_append, List.findIdx?_cons,
      hall a (List.mem_cons_self a l1)]
    simp only [List.length_cons]
    rw [ih (i + 1) (fun y hy => hall y (List.mem_cons_of_mem a hy)) hx]
    have harith : l1.length + (i + 1) = l1.length + 1 + i := by omega
    rw [harith]
    simp

/-- Well-formedness of a scraped candidate as src/forbes_github.py itself
constructs it: date and title are already stripped element text, the date
is non-blank, the title is longer than 10 characters, the link is
non-empty, and the fingerprint field holds `generate_fingerprint` of the
title and link. -/
def scrapedWF (h : String → String) (a : News) : Prop :=
  pyStripS a.date = a.date ∧ pyStripS a.title = a.title ∧ a.date ≠ ("")
  ∧ a.title.length > 10 ∧ a.link ≠ ("")
  ∧ a.fp? = some (generate_fingerprint h a.title a.link)

/-- The streaming scan of src/forbes_github.py collects exactly the items
strictly above the first one judged the same as the marker, for
well-formed items with pairwise-distinct links. -/
theorem collectNewAux_prefix (h : String → String) (ln : News) :
    ∀ (pre : List News) (m : News) (post : List News) (acc : List News),
      (∀ a ∈ pre ++ m :: post, scrapedWF h a) →
      (∀ x ∈ acc, ∀ y ∈ pre ++ m :: post, x.link ≠ y.link) →
      (pre ++ m :: post).Pairwise (fun x y => x.link ≠ y.link) →
      (∀ a ∈ pre, is_same_news a ln = false) →
      is_same_news m ln = true →
      collectNewAux h (some ln) acc (pre ++ m :: post) = (acc ++ pre, true) := by
  intro pre
  induction pre with
  | nil =>
    intro m post acc hwf hdisj _ _ hm
    obtain ⟨hd, ht, hdne, hlen, hle, hfp⟩ := hwf m (by simp)
    have htne : m.title ≠ ("") := by
      intro he
      rw [he] at hlen
      simp at hlen
    have hcur : (⟨m.date, m.title, m.link,
        some (generate_fingerprint h m.title m.link)⟩ : News) = m := by
      rw [← hfp]
    have hany : acc.any (fun a => a.link == m.link) = false := by
      rw [List.any_eq_false]
      intro x hx
      simp only [beq_iff_eq]
      exact hdisj x hx m (by simp)
    simp only [List.nil_append, List.append_nil, collectNewAux, hd, ht]
    rw [beq_eq_false_iff_ne.mpr hdne]
    simp only [Bool.false_eq_true, if_false]
    rw [beq_eq_false_iff_ne.mpr htne, beq_eq_false_iff_ne.mpr hle,
      decide_eq_true hlen]
    simp only [Bool.not_false, Bool.and_self, Bool.not_true,
      Bool.false_eq_true, if_false]
    rw [hany]
    simp only [Bool.false_eq_true, if_false]
    rw [hcur, hm]
    simp
  | cons a pre ih =>
    intro m post acc hwf hdisj hpw hpre hm
    obtain ⟨hd, ht, hdne, hlen, hle, hfp⟩ := hwf a (by simp)
    have htne : a.title ≠ ("") := by
      intro he
      rw [he] at hlen
      simp at hlen
    have hcur : (⟨a.date, a.title, a.link,
        some (generate_fingerprint h a.title a.link)⟩ : News) = a := by
      rw [← hfp]
    have hany : acc.any (fun x => x.link == a.link) = false := by
      rw [List.any_eq_false]
      intro x hx
      simp only [beq_iff_eq]
      exact hdisj x hx a (by simp)
    have hsame : is_same_news a ln = false :=
      hpre a (List.mem_cons_self a pre)
    rw [List.cons_append] at hpw ⊢
    rw [List.pairwise_cons] at hpw
    simp only [collectNewAux, hd, ht]
    rw [beq_eq_false_iff_ne.mpr hdne]
    simp only [Bool.false_eq_true, if_false]
    rw [beq_eq_false_iff_ne.mpr htne, beq_eq_false_iff_ne.mpr hle,
      decide_eq_true hlen]
    simp only [Bool.not_false, Bool.and_self, Bool.not_true,
      Bool.false_eq_true, if_false]
    rw [hany]
    simp only [Bool.false_eq_true, if_false]
    rw [hcur, hsame]
    simp only [Bool.false_eq_true, if_false]
    rw [ih m post (acc ++ [a])
      (fun x hx => hwf x (List.mem_cons_of_mem a hx))
      (by
        intro x hx y hy
        rcases List.mem_append.1 hx with h1 | h1
        · exact hdisj x h1 y (List.mem_cons_of_mem a hy)
        · rw [List.mem_singleton.1 h1]
          exact hpw.1 y hy)
      hpw.2
      (fun x hx => hpre x (List.mem_cons_of_mem a hx))
      hm]
    simp

/-- Claim C2: the marker split — with no marker the whole scraped list is
new; when the first item judged the same as the marker sits at (1-indexed)
position `pre.length + 1`, exactly the `pre.length` items strictly above
it are returned and the match and everything after it are discarded; when
nothing matches the marker the whole list is returned, none dropped.  The
first three parts settle the forbes_github.py revision
(`parse_forbes_ai`), the fourth the streaming scan of the
src/forbes_github.py revision on well-formed, link-distinct scraped
items. -/
theorem claim2 (items pre post : List News) (m ln : News) :
    ((parse_forbes_ai none items).articles = items)
    ∧ ((∀ a ∈ items, is_same_news a ln = false) →
        (parse_forbes_ai (some ln) items).articles = items)
    ∧ (items = pre ++ m :: post → (∀ a ∈ pre, is_same_news a ln = false) →
        is_same_news m ln = true →
        (parse_forbes_ai (some ln) items).articles = pre)
    ∧ (∀ (h : String → String) (h3links : List News),
        (∀ a ∈ pre ++ m :: post, scrapedWF h a) →
        (pre ++ m :: post).Pairwise (fun x y => x.link ≠ y.link) →
        (∀ a ∈ pre, is_same_news a ln = false) →
        is_same_news m ln = true →
        (src_parse_forbes_ai h (some ln) (pre ++ m :: post) h3links).articles
          = pre) := by
  refine ⟨rfl, ?_, ?_, ?_⟩
  · intro hall
    simp only [parse_forbes_ai]
    rw [findIdx?_all_false _ items hall 0]
  · intro hitems hpre hm
    subst hitems
    simp only [parse_forbes_ai]
    rw [findIdx?_first_match _ _ _ pre 0 hpre hm]
    simp [List.take_left]
  · intro h h3links hwf hpw hpre hm
    have hrun := collectNewAux_prefix h ln pre m post [] hwf
      (by intro x hx; cases hx) hpw hpre hm
    simp only [src_parse_forbes_ai, hrun, List.nil_append]
    by_cases hfive : pre.length < 5
    · simp [hfive]
    · simp [hfive]

/-- Witness for `claim2` at a concrete input: the marker matches the second
of three scraped items (via its link), so exactly the first item is new. -/
theorem claim2_witness :
    (parse_forbes_ai (some ⟨("dm"), ("marker title here"), ("LM"), none⟩)
      [⟨("d1"), ("first title xx"), ("L1"), none⟩,
       ⟨("d2"), ("second title yy"), ("LM"), none⟩,
       ⟨("d3"), ("third title zz"), ("L3"), none⟩]).articles
      = [⟨("d1"), ("first title xx"), ("L1"), none⟩] :=
  (claim2 [⟨("d1"), ("first title xx"), ("L1"), none⟩,
       ⟨("d2"), ("second title yy"), ("LM"), none⟩,
       ⟨("d3"), ("third title zz"), ("L3"), none⟩]
    [⟨("d1"), ("first title xx"), ("L1"), none⟩]
    [⟨("d3"), ("third title zz"), ("L3"), none⟩]
    ⟨("d2"), ("second title yy"), ("LM"), none⟩
    ⟨("dm"), ("marker title here"), ("LM"), none⟩).2.2.1
    rfl (by decide) (by decide)

/-- Row rewrite applied by `mark_article_posted`. -/
theorem mark_row_posted_self (idv : Nat) (r : Article) (hr : r.status = statusPosted) :
    (if r.id = idv then { r with status := statusPosted } else r) = r := by
  by_cases hid : r.id = idv
  · simp only [hid, if_pos rfl]
    cases r
    simp_all
  · rw [if_neg hid]

/-- Claim C3: once a row is `posted` it stays; inserts never touch existing
rows; `mark_article_posted` is idempotent and a second call on the same id
is a plain no-op; with a unique id it leaves exactly one `posted` record
for that id.  Selection (`get_next_article`) is embedded as a pure read
returning a row, so it performs no mutation by construction. -/
theorem claim3 (h : String → String) (fail : Bool) (db : NewsStore)
    (site title link : String) (pd : Option String) (now : String)
    (i : Nat) (r : Article) :
    (r ∈ db.rows → r ∈ (add_article h fail db site title link pd now).2.rows)
    ∧ (r ∈ db.rows → r.status = statusPosted →
        r ∈ (mark_article_posted db i).rows)
    ∧ (mark_article_posted (mark_article_posted db i) i = mark_article_posted db i)
    ∧ (db.rows.countP (fun a => a.id == i) = 1 →
        ((mark_article_posted (mark_article_posted db i) i).rows.countP
          (fun a => a.id == i && a.status == statusPosted)) = 1) := by
  have hidem : mark_article_posted (mark_article_posted db i) i
      = mark_article_posted db i := by
    simp only [mark_article_posted, List.map_map]
    congr 1
    apply List.map_congr_left
    intro a _
    by_cases hid : a.id = i
    · simp [Function.comp, hid]
    · simp [Function.comp, hid]
  refine ⟨?_, ?_, hidem, ?_⟩
  · intro hr
    simp only [add_article]
    split
    · exact hr
    · split
      · exact hr
      · simp only [List.mem_append]
        exact Or.inl hr
  · intro hr hpost
    simp only [mark_article_posted]
    refine List.mem_map.2 ⟨r, hr, ?_⟩
    exact mark_row_posted_self i r hpost
  · intro hone
    rw [hidem]
    simp only [mark_article_posted, List.countP_map]
    have hsame : ∀ a ∈ db.rows,
        ((fun x : Article => x.id == i && x.status == statusPosted) ∘
          (fun x : Article => if x.id = i then { x with status := statusPosted } else x)) a
        = (fun x : Article => x.id == i) a := by
      intro a _
      by_cases hid : a.id = i
      · simp [Function.comp, hid, statusPosted]
      · simp [Function.comp, hid]
    rw [List.countP_congr (fun x hx => by rw [hsame x hx])]
    exact hone

/-- Store used by the witness for `claim3`: one already-`posted` row. -/
def claim3Store : NewsStore :=
  ⟨[⟨0, ("s"), ("t"), ("l"), none, ("d"), ("fp0"), statusPosted⟩], 1⟩

/-- Witness for `claim3` at a concrete input: a store holding one `posted`
row with id 0; both membership hypotheses and the unique-id hypothesis are
discharged by computation. -/
theorem claim3_witness :
    ((⟨0, ("s"), ("t"), ("l"), none, ("d"), ("fp0"), statusPosted⟩ : Article)
        ∈ (mark_article_posted claim3Store 0).rows)
    ∧ ((mark_article_posted (mark_article_posted claim3Store 0) 0).rows.countP
        (fun a => a.id == 0 && a.status == statusPosted)) = 1 :=
  ⟨(claim3 id false claim3Store ("s") ("t") ("l") none ("d") 0
      ⟨0, ("s"), ("t"), ("l"), none, ("d"), ("fp0"), statusPosted⟩).2.1
        (by decide) (by decide),
   (claim3 id false claim3Store ("s") ("t") ("l") none ("d") 0
      ⟨0, ("s"), ("t"), ("l"), none, ("d"), ("fp0"), statusPosted⟩).2.2.2
        (by decide)⟩

/-- Claim C4 as stated is false: the final similarity fallback of
`is_same_news` is the overlap coefficient
`|w1 ∩ w2| / max(|w1|,|w2|)`, not the Jaccard similarity
`|w1 ∩ w2| / |w1 ∪ w2|`.  For the titles "a b c d e" and "a b c d f"
(distinct links, no fingerprints) the overlap is 4/5 > 0.7, so the code
judges them the same article, while the Jaccard similarity is 4/6 ≤ 0.7,
so the claim's predicate does not. -/
theorem claim4_counterexample :
    is_same_news ⟨(""), ("a b c d e"), ("L1"), none⟩
        ⟨(""), ("a b c d f"), ("L2"), none⟩ = true
    ∧ is_same_news_specJaccard ⟨(""), ("a b c d e"), ("L1"), none⟩
        ⟨(""), ("a b c d f"), ("L2"), none⟩ = false := by
  decide

/-- Claim C4, amended: `is_same_news` holds iff, in priority order, the
fingerprints are both present and equal, or the links are equal, or the
lower-cased stripped titles are equal, or the *overlap coefficient*
`|w1 ∩ w2| / max(|w1|,|w2|)` of the non-empty word sets exceeds 0.7
(stated exactly as `10·|w1 ∩ w2| > 7·max(|w1|,|w2|)`). -/
theorem claim4_amended (n1 n2 : News) :
    is_same_news n1 n2 = true ↔
      ((truthyFp n1.fp? = true ∧ truthyFp n2.fp? = true ∧ n1.fp? = n2.fp?)
       ∨ n1.link = n2.link
       ∨ pyStripS (pyLowerS n1.title) = pyStripS (pyLowerS n2.title)
       ∨ ((titleWords (pyStripS (pyLowerS n1.title))).Nonempty
          ∧ (titleWords (pyStripS (pyLowerS n2.title))).Nonempty
          ∧ 10 * ((titleWords (pyStripS (pyLowerS n1.title)))
              ∩ (titleWords (pyStripS (pyLowerS n2.title)))).card
            > 7 * max (titleWords (pyStripS (pyLowerS n1.title))).card
                (titleWords (pyStripS (pyLowerS n2.title))).card)) := by
  simp only [is_same_news, Bool.and_eq_true, beq_iff_eq]
  split_ifs with h1 h2 h3 h4
  · simp only [true_iff]
    exact Or.inl ⟨h1.1.1, h1.1.2, h1.2⟩
  · simp only [true_iff]
    exact Or.inr (Or.inl h2)
  · simp only [true_iff]
    exact Or.inr (Or.inr (Or.inl h3))
  · simp only [decide_eq_true_eq]
    constructor
    · intro hgt
      refine Or.inr (Or.inr (Or.inr ⟨?_, ?_, hgt⟩))
      · rw [← Finset.card_pos]
        have := h4.1
        simp only [decide_eq_true_eq] at this
        omega
      · rw [← Finset.card_pos]
        have := h4.2
        simp only [decide_eq_true_eq] at this
        omega
    · intro hr
      rcases hr with hA | hB | hC | hD
      · exact absurd ⟨⟨hA.1, hA.2.1⟩, hA.2.2⟩ h1
      · exact absurd hB h2
      · exact absurd hC h3
      · exact hD.2.2
  · simp only [Bool.false_eq_true, false_iff]
    intro hr
    rcases hr with hA | hB | hC | hD
    · exact absurd ⟨⟨hA.1, hA.2.1⟩, hA.2.2⟩ h1
    · exact absurd hB h2
    · exact absurd hC h3
    · apply h4
      constructor
      · simp only [decide_eq_true_eq]
        have := hD.1.card_pos
        omega
      · simp only [decide_eq_true_eq]
        have := hD.2.1.card_pos
        omega

/-- Claim C5 as stated is false in one respect: an I/O failure during an
insert is caught inside `add_article`, logged, and reported as the falsy
"not inserted" result with no retry and no mutation — but the run then
continues and `main()` returns without any `sys.exit`, so the process
exits 0, not non-zero. -/
theorem claim5_counterexample :
    add_article id true ⟨[], 0⟩ ("s") ("t") ("l") none ("now")
      = (false, ⟨[], 0⟩)
    ∧ news_parser_main_exit_code = 0 := by
  exact ⟨rfl, rfl⟩

/-- Claim C5, amended: an I/O failure on the backing storage during an
insert is reported to the caller as a recoverable (falsy) result, the
storage operation is not retried and nothing is mutated; the run logs the
exception but completes normally, exiting 0 rather than non-zero. -/
theorem claim5_amended (h : String → String) (db : NewsStore)
    (site title link : String) (pd : Option String) (now : String) :
    add_article h true db site title link pd now = (false, db)
    ∧ news_parser_main_exit_code = 0 :=
  ⟨rfl, rfl⟩

/-- Claim C7 as stated is false for the src/forbes_github.py revision:
there the marker is saved from `articles[0]` — the newest *new* item —
and only when at least one new item was collected.  When the scrape
returns exactly the already-known newest article (matched here via its
link), the scraped list is non-empty yet no marker is written. -/
theorem claim7_counterexample :
    (src_parse_forbes_ai id
        (some ⟨("d"), ("a long enough title"), ("L"), none⟩)
        [⟨("d"), ("a long enough title"), ("L"), none⟩] []).savedMarker = none
    ∧ ([⟨("d"), ("a long enough title"), ("L"), none⟩] : List News) ≠ [] := by
  decide

/-- Claim C7, amended: in the forbes_github.py revision the newest item of
the full scraped list is written as the next marker whenever the scrape is
non-empty, even with zero new items; in the src/forbes_github.py revision
the marker is written only when the collected new-article list is
non-empty, as its newest element. -/
theorem claim7_amended (last : Option News) (a : News) (rest : List News)
    (h : String → String) (containers h3links : List News) :
    (parse_forbes_ai last (a :: rest)).savedMarker = some a
    ∧ (src_parse_forbes_ai h last containers h3links).savedMarker
        = (src_parse_forbes_ai h last containers h3links).articles.head? :=
  ⟨rfl, rfl⟩

/-- Claim C9 as stated is false: for date text that no parser and no
relative-time pattern accepts, `normalize_date` returns the original
(stripped) string — the code comment says so explicitly ("вернуть строку,
чтобы сохранить оригинал") — not the current timestamp.  The two stdlib
parsers are instantiated to reject, matching CPython's behaviour on
`"not-a-date!?"`, and the injected current-time values are distinct from
the input. -/
theorem claim9_counterexample :
    normalize_date (fun _ => none) (fun _ => none)
        (fun _ => ("2026-10-12T00:00:00")) (fun _ => ("2026-10-12T00:00:00"))
        ("2026-10-12") (some ("not-a-date!?"))
      = some ("not-a-date!?")
    ∧ some ("not-a-date!?") ≠ some ("2026-10-12T00:00:00" : String)
    ∧ some ("not-a-date!?") ≠ some ("2026-10-12" : String)
    ∧ some ("not-a-date!?") ≠ (none : Option String) := by
  refine ⟨by decide, by decide, by decide, by decide⟩

/-- Claim C9, amended: for malformed date text — text rejected by the ISO
parser, the `"%B %d, %Y"` parser, and every relative-time pattern —
`normalize_date` degrades gracefully without aborting, returning the
original stripped text unchanged (the current-timestamp default is the
ingestion `parsed_date`, not a substitute for a malformed `pub_date`). -/
theorem claim9_amended (p1 p2 : String → Option String)
    (nmh nmm : Nat → String) (td : String) (s : String)
    (h1 : p1 (pyStripS s) = none) (h2 : p2 (pyStripS s) = none)
    (h3 : searchNumSpWord ("hour").data (pyLowerS (pyStripS s)).data = none)
    (h4 : searchNumSpWord ("minute").data (pyLowerS (pyStripS s)).data = none)
    (h5 : pyContainsS ("an hour ago") (pyLowerS (pyStripS s)) = false)
    (h6 : pyContainsS ("one hour ago") (pyLowerS (pyStripS s)) = false)
    (h7 : pyContainsS ("today") (pyLowerS (pyStripS s)) = false)
    (h8 : (pyLowerS (pyStripS s) == ("today" : String)) = false) :
    normalize_date p1 p2 nmh nmm td (some s) = some (pyStripS s) := by
  simp only [normalize_date, h1, h2, h3, h4, h5, h6, h7, h8,
    Bool.or_self, Bool.false_eq_true, if_false]

/-- Witness for `claim9_amended` at a concrete input. -/
theorem claim9_witness :
    normalize_date (fun _ => none) (fun _ => none)
        (fun _ => ("X")) (fun _ => ("Y")) ("Z") (some ("garbage text"))
      = some ("garbage text") := by
  have hs : pyStripS ("garbage text") = ("garbage text") := by decide
  have h := claim9_amended (fun _ => none) (fun _ => none)
    (fun _ => ("X")) (fun _ => ("Y")) ("Z") ("garbage text")
    rfl rfl (by decide) (by decide) (by decide) (by decide) (by decide) (by decide)
  rw [hs] at h
  exact h

/-- Irreflexivity of the `ORDER BY` comparison. -/
theorem keyLtB_irrefl (a : Article) : keyLtB a a = false := by
  simp only [keyLtB, pubLtB, Bool.or_eq_false_iff, Bool.and_eq_false_iff]
  constructor
  · cases a.pub_date with
    | none => rfl
    | some v => simp [lt_irrefl]
  · right
    simp [lt_irrefl]

/-- Transitivity of the NULL-first `pub_date` comparison. -/
theorem pubLtB_trans {a b c : Option String} (hab : pubLtB a b = true)
    (hbc : pubLtB b c = true) : pubLtB a c = true := by
  cases a <;> cases b <;> cases c <;> simp_all [pubLtB]
  exact lt_trans hab hbc

/-- Totality of the NULL-first `pub_date` comparison. -/
theorem pubLtB_total {a b : Option String} (hab : pubLtB a b = false) :
    pubLtB b a = true ∨ a = b := by
  match a, b with
  | none, none => exact Or.inr rfl
  | none, some v => simp [pubLtB] at hab
  | some v, none => exact Or.inl rfl
  | some v, some w =>
    simp only [pubLtB, decide_eq_false_iff_not] at hab
    rcases lt_or_eq_of_le (le_of_not_lt hab) with hlt | heq
    · left
      simp only [pubLtB, decide_eq_true_eq]
      exact hlt
    · exact Or.inr (by rw [heq])

/-- Transitivity of the `ORDER BY` comparison. -/
theorem keyLtB_trans {a b c : Article} (hab : keyLtB a b = true)
    (hbc : keyLtB b c = true) : keyLtB a c = true := by
  simp only [keyLtB, Bool.or_eq_true, Bool.and_eq_true, decide_eq_true_eq] at *
  rcases hab with h1 | ⟨h1e, h1p⟩
  · rcases hbc with h2 | ⟨h2e, h2p⟩
    · exact Or.inl (pubLtB_trans h1 h2)
    · rw [← h2e] at *
      exact Or.inl h1
  · rcases hbc with h2 | ⟨h2e, h2p⟩
    · rw [h1e]
      exact Or.inl h2
    · exact Or.inr ⟨h1e.trans h2e, lt_trans h1p h2p⟩

/-- Totality of the `ORDER BY` comparison: two rows either compare
strictly one way or have identical sort keys. -/
theorem keyLtB_total {a b : Article} (hab : keyLtB a b = false) :
    keyLtB b a = true ∨
      (a.pub_date = b.pub_date ∧ a.parsed_date = b.parsed_date) := by
  simp only [keyLtB, Bool.or_eq_false_iff, Bool.and_eq_false_iff,
    decide_eq_false_iff_not] at hab
  obtain ⟨hp, hq⟩ := hab
  rcases pubLtB_total hp with hlt | heq
  · left
    simp only [keyLtB, Bool.or_eq_true]
    exact Or.inl hlt
  · rcases hq with hne | hnlt
    · exact absurd heq hne
    · rcases lt_or_eq_of_le (le_of_not_lt hnlt) with hlt2 | heq2
      · left
        simp only [keyLtB, Bool.or_eq_true, Bool.and_eq_true, decide_eq_true_eq]
        exact Or.inr ⟨heq.symm, hlt2⟩
      · exact Or.inr ⟨heq, heq2.symm⟩

/-- Rows with identical sort keys compare identically against any row. -/
theorem keyLtB_congr {a b : Article} (hp : a.pub_date = b.pub_date)
    (hq : a.parsed_date = b.parsed_date) (c : Article) :
    keyLtB a c = keyLtB b c := by
  simp only [keyLtB, hp, hq]

/-- Invariant of the `LIMIT 1` fold: starting from `some b`, the fold
returns an element of `b :: l` that no element of `b :: l` strictly
precedes. -/
theorem selStep_fold_spec : ∀ (l : List Article) (b : Article),
    ∃ m, l.foldl selStep (some b) = some m ∧ (m = b ∨ m ∈ l)
      ∧ keyLtB b m = false ∧ ∀ x ∈ l, keyLtB x m = false := by
  intro l
  induction l with
  | nil =>
    intro b
    exact ⟨b, rfl, Or.inl rfl, keyLtB_irrefl b, by intro x hx; cases hx⟩
  | cons r rest ih =>
    intro b
    have hstep : selStep (some b) r
        = if keyLtB r b then some r else some b := rfl
    by_cases hrb : keyLtB r b = true
    · obtain ⟨m, hm, hmem, hbm, hall⟩ := ih r
      refine ⟨m, ?_, ?_, ?_, ?_⟩
      · rw [List.foldl_cons, hstep, if_pos hrb]
        exact hm
      · rcases hmem with h | h
        · exact Or.inr (h ▸ List.mem_cons_self r rest)
        · exact Or.inr (List.mem_cons_of_mem r h)
      · by_cases hbm2 : keyLtB b m = true
        · have := keyLtB_trans hrb hbm2
          rw [this] at hbm
          cases hbm
        · exact Bool.of_not_eq_true hbm2
      · intro x hx
        rcases List.mem_cons.1 hx with hxr | hxrest
        · exact hxr ▸ hbm
        · exact hall x hxrest
    · have hrb2 : keyLtB r b = false := Bool.of_not_eq_true hrb
      obtain ⟨m, hm, hmem, hbm, hall⟩ := ih b
      refine ⟨m, ?_, ?_, hbm, ?_⟩
      · rw [List.foldl_cons, hstep, if_neg (by simp [hrb2])]
        exact hm
      · rcases hmem with h | h
        · exact Or.inl h
        · exact Or.inr (List.mem_cons_of_mem r h)
      · intro x hx
        rcases List.mem_cons.1 hx with hxr | hxrest
        · subst hxr
          rcases keyLtB_total hrb2 with hbr | ⟨hpe, hqe⟩
          · by_cases hxm : keyLtB x m = true
            · have := keyLtB_trans hbr hxm
              rw [this] at hbm
              cases hbm
            · exact Bool.of_not_eq_true hxm
          · rw [keyLtB_congr hpe hqe m]
            exact hbm
        · exact hall x hxrest

/-- Claim C6: when no `new` row exists `get_next_article` returns `none`;
when at least one `new` row exists it returns a `new` row of the store
that is minimal (earliest) under the ascending
`(pub_date, parsed_date)` ordering — no `new` row strictly precedes it. -/
theorem claim6 (db : NewsStore) :
    ((∀ r ∈ db.rows, r.status ≠ statusNew) → get_next_article db = none)
    ∧ (∀ r0 ∈ db.rows, r0.status = statusNew →
        ∃ a, get_next_article db = some a ∧ a ∈ db.rows ∧ a.status = statusNew
          ∧ ∀ r ∈ db.rows, r.status = statusNew → keyLtB r a = false) := by
  constructor
  · intro hnone
    unfold get_next_article
    have : db.rows.filter (fun r => r.status == statusNew) = [] := by
      rw [List.filter_eq_nil_iff]
      intro r hr
      simp [hnone r hr]
    rw [this]
    rfl
  · intro r0 hr0 hst0
    have hr0f : r0 ∈ db.rows.filter (fun r => r.status == statusNew) := by
      rw [List.mem_filter]
      exact ⟨hr0, by simp [hst0]⟩
    obtain ⟨f, fs, hcons⟩ := List.exists_cons_of_ne_nil
      (List.ne_nil_of_mem hr0f)
    obtain ⟨m, hm, hmem, hbm, hall⟩ := selStep_fold_spec fs f
    have hmf : m ∈ db.rows.filter (fun r => r.status == statusNew) := by
      rw [hcons]
      rcases hmem with h | h
      · exact h ▸ List.mem_cons_self f fs
      · exact List.mem_cons_of_mem f h
    have hmrows := (List.mem_filter.1 hmf).1
    have hmnew : m.status = statusNew := by
      have := (List.mem_filter.1 hmf).2
      simpa using this
    refine ⟨m, ?_, hmrows, hmnew, ?_⟩
    · unfold get_next_article
      rw [hcons, List.foldl_cons]
      exact hm
    · intro r hr hst
      have hrf : r ∈ db.rows.filter (fun x => x.status == statusNew) := by
        rw [List.mem_filter]
        exact ⟨hr, by simp [hst]⟩
      rw [hcons] at hrf
      rcases List.mem_cons.1 hrf with hrx | hrrest
      · subst hrx
        exact hbm
      · exact hall r hrrest

/-- Store used by the witness for `claim6`: two `new` rows, the second
one earlier under the `(pub_date, parsed_date)` order. -/
def claim6Store : NewsStore :=
  ⟨[⟨0, ("s"), ("t0"), ("l0"), some ("2025-02"), ("d0"), ("f0"), statusNew⟩,
    ⟨1, ("s"), ("t1"), ("l1"), some ("2025-01"), ("d1"), ("f1"), statusNew⟩], 2⟩

/-- Witness for `claim6` at a concrete input: a store with a `new` row
exists, so a minimal `new` row is selected. -/
theorem claim6_witness :
    ∃ a, get_next_article claim6Store = some a ∧ a ∈ claim6Store.rows
      ∧ a.status = statusNew
      ∧ ∀ r ∈ claim6Store.rows, r.status = statusNew → keyLtB r a = false :=
  (claim6 claim6Store).2
    ⟨0, ("s"), ("t0"), ("l0"), some ("2025-02"), ("d0"), ("f0"), statusNew⟩
    (by decide) (by decide)

/-!
Lemmas about single-character splitting, joining and substring search,
used to settle the file-pruning claims.  `splitCh` is a structurally
recursive form of `PyStr.pySplit` specialised to a one-character
separator; the bridge lemma `pySplit_single` transports every lemma to
the model's `pySplit`.
-/

/-- Structural form of splitting on a single-character separator. -/
def splitCh (sep : Char) : List Char → List (List Char)
  | [] => [[]]
  | c :: cs =>
    if c = sep then [] :: splitCh sep cs
    else
      match splitCh sep cs with
      | [] => [[c]]
      | p :: ps => (c :: p) :: ps

/-- Fuel elimination for a single-character separator. -/
theorem splitF_single (c0 : Char) :
    ∀ (fuel : Nat) (s : List Char), s.length ≤ fuel →
      PyStr.splitF c0 [] fuel s = splitCh c0 s := by
  intro fuel
  induction fuel with
  | zero =>
    intro s hs
    cases s with
    | nil => rfl
    | cons c cs => simp at hs
  | succ f ih =>
    intro s hs
    cases s with
    | nil => rfl
    | cons c cs =>
      have hpre : (c0 :: ([] : List Char)).isPrefixOf (c :: cs) = (c0 == c) := by
        simp [List.isPrefixOf]
      simp only [PyStr.splitF, hpre, List.length_nil, List.drop_zero, splitCh]
      have hlen : cs.length ≤ f := by
        simp only [List.length_cons] at hs
        omega
      rw [ih cs hlen]
      by_cases hc : c = c0
      · rw [if_pos (by simp [hc]), if_pos hc]
      · rw [if_neg (by simp [Ne.symm hc]), if_neg hc]

/-- Bridge: the model's `pySplit` on a one-character separator. -/
theorem pySplit_single (c : Char) (s : List Char) :
    PyStr.pySplit [c] s = splitCh c s := by
  exact splitF_single c s.length s le_rfl

/-- Splitting never yields the empty list of parts. -/
theorem splitCh_shape (sep : Char) :
    ∀ s : List Char, ∃ p ps, splitCh sep s = p :: ps := by
  intro s
  induction s with
  | nil => exact ⟨[], [], rfl⟩
  | cons c cs ih =>
    obtain ⟨p, ps, hp⟩ := ih
    by_cases hc : c = sep
    · exact ⟨[], splitCh sep cs, by simp [splitCh, hc]⟩
    · exact ⟨c :: p, ps, by simp [splitCh, hc, hp]⟩

/-- No part produced by the split contains the separator. -/
theorem mem_splitCh_no_sep (sep : Char) :
    ∀ (s : List Char) (p : List Char), p ∈ splitCh sep s → sep ∉ p := by
  intro s
  induction s with
  | nil =>
    intro p hp
    simp only [splitCh, List.mem_singleton] at hp
    subst hp
    exact List.not_mem_nil sep
  | cons c cs ih =>
    intro p hp
    by_cases hc : c = sep
    · simp only [splitCh, if_pos hc, List.mem_cons] at hp
      rcases hp with h | h
      · subst h; exact List.not_mem_nil sep
      · exact ih p h
    · obtain ⟨q, qs, hq⟩ := splitCh_shape sep cs
      simp only [splitCh, if_neg hc, hq, List.mem_cons] at hp
      rcases hp with h | h
      · subst h
        intro hmem
        rcases List.mem_cons.1 hmem with h2 | h2
        · exact hc h2.symm
        · exact ih q (hq ▸ List.mem_cons_self q qs) h2
      · exact ih p (hq ▸ List.mem_cons_of_mem q h)

/-- Joining the parts reproduces the original string. -/
theorem join_splitCh (sep : Char) :
    ∀ s : List Char, PyStr.pyJoin [sep] (splitCh sep s) = s := by
  intro s
  induction s with
  | nil => rfl
  | cons c cs ih =>
    by_cases hc : c = sep
    · obtain ⟨q, qs, hq⟩ := splitCh_shape sep cs
      rw [splitCh, if_pos hc, hq]
      rw [hq] at ih
      calc PyStr.pyJoin [sep] ([] :: q :: qs)
          = [sep] ++ PyStr.pyJoin [sep] (q :: qs) := rfl
        _ = c :: cs := by rw [ih, hc, List.singleton_append]
    · obtain ⟨q, qs, hq⟩ := splitCh_shape sep cs
      rw [splitCh, if_neg hc, hq]
      rw [hq] at ih
      cases qs with
      | nil =>
        simp only [PyStr.pyJoin] at ih ⊢
        rw [ih]
      | cons r rs =>
        calc PyStr.pyJoin [sep] ((c :: q) :: r :: rs)
            = (c :: q) ++ [sep] ++ PyStr.pyJoin [sep] (r :: rs) := rfl
          _ = c :: (q ++ [sep] ++ PyStr.pyJoin [sep] (r :: rs)) := by simp
          _ = c :: PyStr.pyJoin [sep] (q :: r :: rs) := rfl
          _ = c :: cs := by rw [ih]

/-- Splitting a separator-free string yields the single part. -/
theorem splitCh_no_sep (sep : Char) :
    ∀ p : List Char, sep ∉ p → splitCh sep p = [p] := by
  intro p
  induction p with
  | nil => intro _; rfl
  | cons c p' ih =>
    intro hns
    have hc : ¬ c = sep := fun h => hns (h ▸ List.mem_cons_self c p')
    have hp' : sep ∉ p' := fun h => hns (List.mem_cons_of_mem c h)
    rw [splitCh, if_neg hc, ih hp']

/-- Splitting a string that starts with a separator-free part followed by
the separator peels off exactly that part. -/
theorem splitCh_append_sep (sep : Char) :
    ∀ (p t : List Char), sep ∉ p →
      splitCh sep (p ++ sep :: t) = p :: splitCh sep t := by
  intro p
  induction p with
  | nil =>
    intro t _
    simp [splitCh]
  | cons c p' ih =>
    intro t hns
    have hc : ¬ c = sep := fun h => hns (h ▸ List.mem_cons_self c p')
    have hp' : sep ∉ p' := fun h => hns (List.mem_cons_of_mem c h)
    rw [List.cons_append, splitCh, if_neg hc, ih t hp']

/-- Splitting inverts joining when the parts are separator-free. -/
theorem splitCh_join (sep : Char) :
    ∀ ps : List (List Char), ps ≠ [] → (∀ p ∈ ps, sep ∉ p) →
      splitCh sep (PyStr.pyJoin [sep] ps) = ps := by
  intro ps
  induction ps with
  | nil => intro h _; exact absurd rfl h
  | cons p qs ih =>
    intro _ hall
    cases qs with
    | nil =>
      show splitCh sep (PyStr.pyJoin [sep] [p]) = [p]
      exact splitCh_no_sep sep p (hall p (List.mem_cons_self p []))
    | cons q rs =>
      have hjoin : PyStr.pyJoin [sep] (p :: q :: rs)
          = p ++ sep :: PyStr.pyJoin [sep] (q :: rs) := by
        show p ++ [sep] ++ PyStr.pyJoin [sep] (q :: rs) = _
        simp
      rw [hjoin,
        splitCh_append_sep sep p _ (hall p (List.mem_cons_self p (q :: rs))),
        ih (by simp) (fun x hx => hall x (List.mem_cons_of_mem p hx))]

/-- The first part produced by the split is a prefix of the string. -/
theorem splitCh_head_pre (sep : Char) :
    ∀ (s q : List Char) (qs : List (List Char)),
      splitCh sep s = q :: qs → q <+: s := by
  intro s
  induction s with
  | nil =>
    intro q qs h
    simp only [splitCh] at h
    cases h
    exact List.nil_prefix
  | cons c cs ih =>
    intro q qs h
    by_cases hc : c = sep
    · rw [splitCh, if_pos hc] at h
      cases h
      exact List.nil_prefix
    · obtain ⟨p, ps, hp⟩ := splitCh_shape sep cs
      rw [splitCh, if_neg hc, hp] at h
      obtain ⟨h1, h2⟩ := List.cons.inj h
      subst h1
      obtain ⟨t, ht⟩ := ih p ps hp
      exact ⟨t, by rw [List.cons_append, ht]⟩

/-- Every part produced by the split occurs inside the string. -/
theorem mem_splitCh_inf (sep : Char) :
    ∀ (s p : List Char), p ∈ splitCh sep s → p <:+: s := by
  intro s
  induction s with
  | nil =>
    intro p hp
    simp only [splitCh, List.mem_singleton] at hp
    subst hp
    exact ⟨[], [], rfl⟩
  | cons c cs ih =>
    intro p hp
    by_cases hc : c = sep
    · rw [splitCh, if_pos hc] at hp
      rcases List.mem_cons.1 hp with h | h
      · subst h
        exact ⟨[], c :: cs, rfl⟩
      · obtain ⟨s1, s2, hs⟩ := ih p h
        exact ⟨c :: s1, s2, by rw [← hs]; rfl⟩
    · obtain ⟨q, qs, hq⟩ := splitCh_shape sep cs
      rw [splitCh, if_neg hc, hq] at hp
      rcases List.mem_cons.1 hp with h | h
      · subst h
        obtain ⟨t, ht⟩ := splitCh_head_pre sep cs q qs hq
        exact ⟨[], t, by rw [List.nil_append, List.cons_append, ht]⟩
      · obtain ⟨s1, s2, hs⟩ := ih p (hq ▸ List.mem_cons_of_mem q h)
        exact ⟨c :: s1, s2, by rw [← hs]; rfl⟩

/-- A prefix of `a ++ x :: t` avoiding `x` is already a prefix of `a`. -/
theorem pre_of_append_avoid (x : Char) :
    ∀ (u a t : List Char), u <+: (a ++ x :: t) → x ∉ u → u <+: a := by
  intro u
  induction u with
  | nil => intro a t _ _; exact List.nil_prefix
  | cons c u' ih =>
    intro a t hpre hnm
    cases a with
    | nil =>
      rw [List.nil_append] at hpre
      obtain ⟨hc, _⟩ := (List.cons_prefix_cons).1 hpre
      exact absurd (hc ▸ List.mem_cons_self c u') hnm
    | cons b a' =>
      rw [List.cons_append] at hpre
      obtain ⟨hc, htail⟩ := (List.cons_prefix_cons).1 hpre
      subst hc
      have hnm' : x ∉ u' := fun hm => hnm (List.mem_cons_of_mem c hm)
      obtain ⟨t2, ht2⟩ := ih a' t htail hnm'
      exact ⟨t2, by rw [List.cons_append, ht2]⟩

/-- A substring of `a ++ x :: t` avoiding `x` occurs in `a` or in `t`. -/
theorem inf_of_append_avoid (x : Char) (u : List Char) (hnm : x ∉ u) :
    ∀ (s1 : List Char) (a t s2 : List Char),
      s1 ++ u ++ s2 = a ++ x :: t → u <:+: a ∨ u <:+: t := by
  intro s1
  induction s1 with
  | nil =>
    intro a t s2 heq
    rw [List.nil_append] at heq
    have hpre : u <+: (a ++ x :: t) := ⟨s2, heq⟩
    obtain ⟨t2, ht2⟩ := pre_of_append_avoid x u a t hpre hnm
    exact Or.inl ⟨[], t2, by rw [List.nil_append]; exact ht2⟩
  | cons d s1' ih =>
    intro a t s2 heq
    cases a with
    | nil =>
      simp only [List.nil_append, List.cons_append] at heq
      obtain ⟨_, htail⟩ := List.cons.inj heq
      exact Or.inr ⟨s1', s2, htail⟩
    | cons b a' =>
      simp only [List.cons_append] at heq
      obtain ⟨_, htail⟩ := List.cons.inj heq
      rcases ih a' t s2 htail with h | h
      · obtain ⟨t1, t2, ht⟩ := h
        exact Or.inl ⟨b :: t1, t2, by rw [← ht]; rfl⟩
      · exact Or.inr h

/-- A non-empty, separator-free substring of a join occurs inside one of
the parts. -/
theorem inf_of_join (sep : Char) (u : List Char) (hne : u ≠ [])
    (hns : sep ∉ u) :
    ∀ ps : List (List Char), u <:+: PyStr.pyJoin [sep] ps →
      ∃ p ∈ ps, u <:+: p := by
  intro ps
  induction ps with
  | nil =>
    intro hinf
    obtain ⟨s1, s2, hs⟩ := hinf
    have h1 := List.append_eq_nil.1 hs
    have h2 := List.append_eq_nil.1 h1.1
    exact absurd h2.2 hne
  | cons p qs ih =>
    intro hinf
    cases qs with
    | nil =>
      exact ⟨p, List.mem_cons_self p [], hinf⟩
    | cons q rs =>
      have hjoin : PyStr.pyJoin [sep] (p :: q :: rs)
          = p ++ sep :: PyStr.pyJoin [sep] (q :: rs) := by
        show p ++ [sep] ++ PyStr.pyJoin [sep] (q :: rs) = _
        simp
      rw [hjoin] at hinf
      obtain ⟨s1, s2, hs⟩ := hinf
      rcases inf_of_append_avoid sep u hns s1 p _ s2 hs with h | h
      · exact ⟨p, List.mem_cons_self p (q :: rs), h⟩
      · obtain ⟨p2, hp2, hu⟩ := ih h
        exact ⟨p2, List.mem_cons_of_mem p hp2, hu⟩

/-- Newline split of the model agrees with `splitCh`. -/
theorem pySplit_nl (s : List Char) : PyStr.pySplit nlSep s = splitCh ('\n') s :=
  pySplit_single ('\n') s

/-- Newline join of the model, in `splitCh` form. -/
theorem pyJoin_nl (ps : List (List Char)) :
    PyStr.pyJoin nlSep ps = PyStr.pyJoin [ '\n' ] ps := rfl

/-- On simple-layout content (no Forbes marker) the removal is the line
filter. -/
theorem remove_simple (c line : List Char)
    (hmk : PyStr.pyContains forbesMarker c = false) :
    remove_news_from_file c line
      = PyStr.pyJoin nlSep
          ((splitCh ('\n') c).filter (fun l => !(PyStr.pyStrip l == line))) := by
  simp only [remove_news_from_file, hmk, Bool.false_eq_true, if_false,
    pySplit_nl]

/-- The Forbes marker cannot appear in the rewritten simple-layout
content: it is newline-free, so it would have to sit inside one surviving
line, which is a substring of the original content. -/
theorem marker_free_result (c line : List Char)
    (hmk : PyStr.pyContains forbesMarker c = false) :
    PyStr.pyContains forbesMarker (remove_news_from_file c line) = false := by
  rw [remove_simple c line hmk]
  cases h2 : PyStr.pyContains forbesMarker
      (PyStr.pyJoin nlSep
        ((splitCh ('\n') c).filter (fun l => !(PyStr.pyStrip l == line)))) with
  | false => rfl
  | true =>
    exfalso
    rw [pyJoin_nl] at h2
    have hinf := of_decide_eq_true h2
    have hne : forbesMarker ≠ [] := by decide
    have hnl : ('\n') ∉ forbesMarker := by decide
    obtain ⟨p, hpmem, hpinf⟩ := inf_of_join ('\n') forbesMarker hne hnl _ hinf
    have hpc : p <:+: c :=
      mem_splitCh_inf ('\n') c p (List.mem_of_mem_filter hpmem)
    have hmc : PyStr.pyContains forbesMarker c = true :=
      decide_eq_true (hpinf.trans hpc)
    rw [hmc] at hmk
    cases hmk

/-- Rewriting a simple-layout file a second time changes nothing. -/
theorem remove_simple_idem (c line : List Char)
    (hmk : PyStr.pyContains forbesMarker c = false) :
    remove_news_from_file (remove_news_from_file c line) line
      = remove_news_from_file c line := by
  have hmk2 := marker_free_result c line hmk
  rw [remove_simple _ line hmk2, remove_simple c line hmk]
  simp only [pyJoin_nl]
  cases hls : (splitCh ('\n') c).filter (fun l => !(PyStr.pyStrip l == line)) with
  | nil =>
    show PyStr.pyJoin [ '\n' ]
        ((splitCh ('\n') (PyStr.pyJoin [ '\n' ] [])).filter
          (fun l => !(PyStr.pyStrip l == line)))
      = PyStr.pyJoin [ '\n' ] []
    cases hp : (fun l : List Char => !(PyStr.pyStrip l == line)) [] <;>
      simp [PyStr.pyJoin, splitCh, hp]
  | cons q qs =>
    have hfree : ∀ l ∈ q :: qs, ('\n') ∉ l := by
      intro l hl
      have hl2 : l ∈ List.filter (fun x => !(PyStr.pyStrip x == line))
          (splitCh ('\n') c) := by
        rw [hls]
        exact hl
      exact mem_splitCh_no_sep ('\n') c l (List.mem_of_mem_filter hl2)
    rw [splitCh_join ('\n') (q :: qs) (by simp) hfree]
    have hstay : ∀ l ∈ q :: qs, (fun x => !(PyStr.pyStrip x == line)) l = true := by
      intro l hl
      have hl2 : l ∈ List.filter (fun x => !(PyStr.pyStrip x == line))
          (splitCh ('\n') c) := by
        rw [hls]
        exact hl
      have h3 := List.of_mem_filter hl2
      exact h3
    rw [List.filter_eq_self.2 hstay]

/-- The Sent-Set update of `mark_news_sent_and_cleanup` is always the
plain insertion of the hash. -/
theorem mark_sent_eq (news_hash news_line : List Char) (st : FilesState) :
    (mark_news_sent_and_cleanup news_hash news_line st).sent
      = insert news_hash st.sent := by
  unfold mark_news_sent_and_cleanup
  cases st.file <;> rfl

/-- The 50-dash separator as a string, for building concrete file
contents. -/
def dash50S : String := ⟨List.replicate 50 ('-')⟩

/-- Content used by the counterexample to claim C8: a Forbes-layout file
whose `New articles:` counter line runs across the 50-dash block
separator. -/
def c8content : List Char :=
  (("FORBES AI - GITHUB PARSER\nTITLE: aa\n1. LINK: x\nNew articles: 3:"
    ++ dash50S ++ ("q\nzz\nstuff"))).data

/-- State of the file after the first `mark_news_sent_and_cleanup` call on
`c8content`: the counter line has been rewritten, destroying the block
separator that sat inside it. -/
def c8after : List Char :=
  ("FORBES AI - GITHUB PARSER\nTITLE: aa\n1. LINK: x\nNew articles: 3\nzz\nstuff").data

set_option maxRecDepth 10000 in
/-- Claim C8 as stated is false: for Forbes-layout contents in which the
`New articles:` counter line spans a block separator, the first call
rewrites that line (removing zero blocks) and thereby merges two blocks;
the second call for the same fingerprint then matches and removes the
merged block and deletes the file — the source file is *not* left in the
state the first call produced. -/
theorem claim8_counterexample :
    (mark_news_sent_and_cleanup (("h1").data) (("zz | u").data)
        (mark_news_sent_and_cleanup (("h1").data) (("zz | u").data)
          ⟨∅, some c8content⟩)).file = none
    ∧ (mark_news_sent_and_cleanup (("h1").data) (("zz | u").data)
        ⟨∅, some c8content⟩).file = some c8after
    ∧ some c8after ≠ (none : Option (List Char)) := by
  refine ⟨by decide, by decide, by decide⟩

/-- Claim C8, amended: re-running `mark_news_sent_and_cleanup` for a
fingerprint already in the Sent-Set never errors and never changes the
Sent-Set (hash insertion is idempotent); and whenever the source file is
already gone or its content is in the simple layout (no Forbes marker),
the second call leaves the Sent-Set *and* the file exactly in the state
the first call produced.  (For Forbes-layout contents the file part can
fail, as the counterexample shows.) -/
theorem claim8_amended (st : FilesState) (news_hash news_line : List Char) :
    ((mark_news_sent_and_cleanup news_hash news_line
        (mark_news_sent_and_cleanup news_hash news_line st)).sent
      = (mark_news_sent_and_cleanup news_hash news_line st).sent)
    ∧ ((∀ c, st.file = some c → PyStr.pyContains forbesMarker c = false) →
        mark_news_sent_and_cleanup news_hash news_line
          (mark_news_sent_and_cleanup news_hash news_line st)
        = mark_news_sent_and_cleanup news_hash news_line st) := by
  constructor
  · rw [mark_sent_eq, mark_sent_eq, Finset.insert_idem]
  · intro hmk
    cases hfile : st.file with
    | none =>
      simp [mark_news_sent_and_cleanup, hfile, Finset.insert_idem]
    | some c =>
      have hc := hmk c hfile
      have hmk1 := marker_free_result c news_line hc
      cases hnews : file_has_news (remove_news_from_file c news_line) with
      | false =>
        simp [mark_news_sent_and_cleanup, hfile, hnews, Finset.insert_idem]
      | true =>
        have hidem := remove_simple_idem c news_line hc
        simp only [mark_news_sent_and_cleanup, hfile, hnews, if_true]
        simp only [hidem, hnews, if_true, Finset.insert_idem]

/-- State used by the witness for `claim8_amended`: a simple-layout file
with two records. -/
def claim8State : FilesState :=
  ⟨∅, some (("aaa | http://a\nbbb | http://b").data)⟩

/-- Witness for `claim8_amended` at a concrete input: marking the record
`"aaa | http://a"` sent twice gives the same state as marking it once. -/
theorem claim8_witness :
    mark_news_sent_and_cleanup (("h2").data) (("aaa | http://a").data)
        (mark_news_sent_and_cleanup (("h2").data) (("aaa | http://a").data)
          claim8State)
      = mark_news_sent_and_cleanup (("h2").data) (("aaa | http://a").data)
          claim8State :=
  (claim8_amended claim8State (("h2").data) (("aaa | http://a").data)).2
    (by
      intro c hc
      have : (("aaa | http://a\nbbb | http://b").data) = c :=
        Option.some.inj hc
      rw [← this]
      decide)

/-- The block-removal loop keeps exactly the non-matching blocks in order
and counts the matching ones. -/
theorem removeBlocksLoop_spec (title : List Char) :
    ∀ (bs acc : List (List Char)) (k : Nat),
      removeBlocksLoop title acc k bs
        = (acc ++ bs.filter (fun b => !blockMatches title b),
           k + bs.countP (fun b => blockMatches title b)) := by
  intro bs
  induction bs with
  | nil =>
    intro acc k
    simp [removeBlocksLoop]
  | cons b bs ih =>
    intro acc k
    cases hb : blockMatches title b with
    | true =>
      simp only [removeBlocksLoop, hb, if_true]
      rw [ih, Prod.mk.injEq]
      refine ⟨by simp [List.filter_cons, hb], ?_⟩
      simp only [List.countP_cons, hb, if_true]
      omega
    | false =>
      simp only [removeBlocksLoop, hb, Bool.false_eq_true, if_false]
      rw [ih, Prod.mk.injEq]
      refine ⟨by simp [List.filter_cons, hb], ?_⟩
      simp only [List.countP_cons, hb, Bool.false_eq_true, if_false]
      omega

/-- Looking up the element sitting right after a known prefix. -/
theorem getq_append_len {α : Type} :
    ∀ (l1 : List α) (x : α) (l2 : List α),
      (l1 ++ x :: l2).get? l1.length = some x := by
  intro l1
  induction l1 with
  | nil => intro x l2; rfl
  | cons a l1 ih => intro x l2; exact ih x l2

/-- Setting the element sitting right after a known prefix. -/
theorem set_append_len {α : Type} :
    ∀ (l1 : List α) (x y : α) (l2 : List α),
      (l1 ++ x :: l2).set l1.length y = l1 ++ y :: l2 := by
  intro l1
  induction l1 with
  | nil => intro x y l2; rfl
  | cons a l1 ih =>
    intro x y l2
    show a :: ((l1 ++ x :: l2).set l1.length y) = a :: (l1 ++ y :: l2)
    rw [ih]

/-- Content used by the counterexample to claim C10: the `New articles:`
counter line lives in the same delimited block as the first (and only)
article, as in every file `save_results` writes. -/
def c10content : List Char :=
  (("FORBES AI - GITHUB PARSER\nNew articles: 1\n\n1. DATE: d\n   TITLE: tt tt tt\n   LINK: http://x\n"
    ++ dash50S ++ ("\n\n"))).data

/-- Record line selected in the C10 counterexample. -/
def c10line : List Char := ("tt tt tt | http://x").data

set_option maxRecDepth 10000 in
/-- Claim C10 as stated is false: when the removed block contains the
`New articles:` counter line itself (which holds for the first article of
every file the parser writes, since the header and the first article share
a block), the counter is not decremented — it vanishes with the block and
no counter line exists in the result at all, instead of reading `0`. -/
theorem claim10_counterexample :
    remove_forbes_news_block c10content c10line = ("\n\n").data
    ∧ (PyStr.pySplit sepDashes c10content).countP
        (fun b => blockMatches (("tt tt tt").data) b) = 1
    ∧ PyStr.pyContains counterLabel
        (remove_forbes_news_block c10content c10line) = false := by
  refine ⟨by decide, by decide, by decide⟩

/-- Claim C10, amended: for a record line containing `'|'`, the prune step
removes every delimited block containing both `'TITLE:'` and the record's
title (possibly several, possibly zero) and passes the joined remainder
with the removal count to the counter update; the counter update leaves
content without any `New articles:` line unchanged, and rewrites the
first surviving `New articles:` line whose value parses as `n` to
`max(0, n - removed)` — never below zero. -/
theorem claim10_amended (content line : List Char) :
    (PyStr.pyContains pipeSep line = true →
      remove_forbes_news_block content line
        = update_articles_count
            (PyStr.pyJoin sepDashes
              ((PyStr.pySplit sepDashes content).filter
                (fun b => !blockMatches
                  (PyStr.pyStrip ((PyStr.pySplit pipeSep line).headI)) b)))
            ((PyStr.pySplit sepDashes content).countP
              (fun b => blockMatches
                (PyStr.pyStrip ((PyStr.pySplit pipeSep line).headI)) b)))
    ∧ (∀ (s : List Char) (k : Nat),
        (∀ l ∈ PyStr.pySplit nlSep s,
          PyStr.pyStartswith counterLabel (PyStr.pyStrip l) = false) →
        update_articles_count s k = s)
    ∧ (∀ (pre post : List (List Char)) (L seg : List Char) (k : Nat) (n : Int),
        (∀ l ∈ pre, PyStr.pyStartswith counterLabel (PyStr.pyStrip l) = false) →
        PyStr.pyStartswith counterLabel (PyStr.pyStrip L) = true →
        (∀ l ∈ pre, ('\n') ∉ l) → ('\n') ∉ L → (∀ l ∈ post, ('\n') ∉ l) →
        (PyStr.pySplit colonSep L).get? 1 = some seg →
        PyStr.pyInt? (PyStr.pyStrip seg) = some n →
        update_articles_count (PyStr.pyJoin nlSep (pre ++ L :: post)) k
          = PyStr.pyJoin nlSep (pre ++
              (counterLabel ++ [ ' ' ] ++
                (Nat.repr (max 0 (n - (k : Int))).toNat).data) :: post)) := by
  refine ⟨?_, ?_, ?_⟩
  · intro hp
    simp only [remove_forbes_news_block, hp, Bool.not_true, Bool.false_eq_true,
      if_false]
    rw [removeBlocksLoop_spec]
    simp only [List.nil_append, Nat.zero_add]
  · intro s k hall
    simp only [update_articles_count]
    rw [findIdx?_all_false _ _ hall 0]
    show PyStr.pyJoin nlSep (PyStr.pySplit nlSep s) = s
    rw [pySplit_nl, pyJoin_nl, join_splitCh]
  · intro pre post L seg k n hpre hL hprefree hLfree hpostfree hseg hint
    have hlines : PyStr.pySplit nlSep (PyStr.pyJoin nlSep (pre ++ L :: post))
        = pre ++ L :: post := by
      rw [pySplit_nl, pyJoin_nl]
      apply splitCh_join
      · simp
      · intro p hp
        rcases List.mem_append.1 hp with h | h
        · exact hprefree p h
        · rcases List.mem_cons.1 h with h2 | h2
          · rw [h2]
            exact hLfree
          · exact hpostfree p h2
    simp only [update_articles_count]
    rw [hlines]
    rw [findIdx?_first_match _ L post pre 0 hpre hL]
    simp only [Nat.add_zero, getq_append_len, hseg, hint, set_append_len]

/-- Witness for `claim10_amended` at concrete inputs: the structural
removal equation on the C10 content, and counter stability on content
without a counter line. -/
theorem claim10_witness :
    (remove_forbes_news_block c10content c10line
      = update_articles_count
          (PyStr.pyJoin sepDashes
            ((PyStr.pySplit sepDashes c10content).filter
              (fun b => !blockMatches
                (PyStr.pyStrip ((PyStr.pySplit pipeSep c10line).headI)) b)))
          ((PyStr.pySplit sepDashes c10content).countP
            (fun b => blockMatches
              (PyStr.pyStrip ((PyStr.pySplit pipeSep c10line).headI)) b)))
    ∧ update_articles_count (("no counter\nhere").data) 3
        = ("no counter\nhere").data :=
  ⟨(claim10_amended c10content c10line).1 (by decide),
   (claim10_amended c10content c10line).2.1 (("no counter\nhere").data) 3
     (by decide)⟩
